/-
Verification of the bitcoin-to-ArangoDB importer against its
natural-language specification.

The repository ships two generations of the pipeline:
  * a monolithic `index.js` (with its companion `errors.js`), and
  * a refactored `worker.js` + `db.js` pair (with a richer errors module).
Both are embedded below where a claim cites them.  JavaScript numbers that
only ever undergo exact halving are modelled as rationals; duck-typed
documents become structures; thrown exceptions become `Except` errors;
the ArangoDB document store becomes a finite map from keys to documents.
-/
import Mathlib

namespace BtcImport

/-! ## Block subsidy (worker.js / part_005 `getBlockSubsidy`, threshold `>=`)

```js
function getBlockSubsidy(height, subsidy=50) {
    if (height >= 210000) {
        return getBlockSubsidy(height - 210000, subsidy/2);
    } else {
        return subsidy;
    }
}
```
-/

def getBlockSubsidy (height : ℕ) (subsidy : ℚ := 50) : ℚ :=
  if height ≥ 210000 then getBlockSubsidy (height - 210000) (subsidy / 2)
  else subsidy
termination_by height
decreasing_by omega

/-! ## Block subsidy (src/index.js `getBlockSubsidy`, threshold `>`)

```js
function getBlockSubsidy(height, subsidy=50) {
    if (height > 210000) {
        return getBlockSubsidy(height - 210000, subsidy/2);
    } else {
        return subsidy;
    }
}
```
-/

def getBlockSubsidyIdx (height : ℕ) (subsidy : ℚ := 50) : ℚ :=
  if height > 210000 then getBlockSubsidyIdx (height - 210000) (subsidy / 2)
  else subsidy
termination_by height
decreasing_by omega

/-- Closed form of the worker-side subsidy recursion. -/
lemma getBlockSubsidy_closed (height : ℕ) :
    ∀ subsidy : ℚ, getBlockSubsidy height subsidy = subsidy / 2 ^ (height / 210000) := by
  induction height using Nat.strong_induction_on with
  | _ height ih =>
    intro subsidy
    rw [getBlockSubsidy]
    by_cases h : height ≥ 210000
    · rw [if_pos h, ih (height - 210000) (by omega) (subsidy / 2)]
      rw [Nat.div_eq_sub_div (by norm_num) h]
      rw [div_div, pow_succ]
      ring_nf
    · rw [if_neg h, Nat.div_eq_of_lt (by omega)]
      norm_num

/-- C2: the claim asserts `subsidy(210000) = 25`, but the copy of
`getBlockSubsidy` in `src/index.js` halves only for heights strictly greater
than 210000, so at height 210000 it still returns 50. -/
theorem C2_counterexample :
    getBlockSubsidyIdx 210000 = 50 ∧ (50 : ℚ) ≠ 25 := by
  constructor
  · rw [getBlockSubsidyIdx]
    norm_num
  · norm_num

/-- C2 (amended): the `worker.js`/`part_005` copy of the subsidy function
satisfies every equation of the claim — `subsidy(0) = 50`,
`subsidy(209999) = 50`, `subsidy(210000) = 25`, `subsidy(420000) = 12.5`, and
`subsidy(h) = subsidy(h mod 210000) / 2 ^ (h / 210000)` for all `h` — while
the `src/index.js` copy halves one height too late, giving
`subsidy(210000) = 50` and `subsidy(420000) = 25`. -/
theorem C2_subsidy_amended :
    getBlockSubsidy 0 = 50 ∧ getBlockSubsidy 209999 = 50 ∧
    getBlockSubsidy 210000 = 25 ∧ getBlockSubsidy 420000 = 25 / 2 ∧
    (∀ h : ℕ, getBlockSubsidy h = getBlockSubsidy (h % 210000) / 2 ^ (h / 210000)) ∧
    getBlockSubsidyIdx 210000 = 50 ∧ getBlockSubsidyIdx 420000 = 25 := by
  refine ⟨?_, ?_, ?_, ?_, ?_, ?_, ?_⟩
  · rw [getBlockSubsidy_closed]
    norm_num
  · rw [getBlockSubsidy_closed]
    norm_num
  · rw [getBlockSubsidy_closed]
    norm_num
  · rw [getBlockSubsidy_closed]
    norm_num
  · intro h
    rw [getBlockSubsidy_closed, getBlockSubsidy_closed,
      Nat.div_eq_of_lt (Nat.mod_lt h (by norm_num))]
    norm_num
  · rw [getBlockSubsidyIdx]
    norm_num
  · rw [getBlockSubsidyIdx]
    norm_num
    rw [getBlockSubsidyIdx]
    norm_num

/-! ## The `map` helper

`worker.js`:
```js
async function map (func, list, ...args) {
    let ret;
    if (ASYNC) {
        ret = await Promise.all(list.map((value, index) => func(value, ...args, index)));
    } else {
        ret = []
        for (let index = 0; index < list.length; index++) {
            ret.push(await func(list[index], ...args, index));
        }
    }
    return ret;
}
```

`src/index.js` differs in the sync branch:
```js
        for (let index = 0; index < list.length; index++) {
            ret.push(await func(list[index], ...args), index);
        }
```
so `func` is called without the index argument, and `push` receives two
arguments — the result and the loop index — appending both to `ret`.

For a pure `func` the async branch is JS `Array.prototype.map` with the
index passed through; the sync branch is an explicit indexed loop.  The
index.js sync branch produces a heterogeneous array, modelled with a sum
type; the omitted index argument is modelled by an `Option ℕ` parameter. -/

def mapWorkerAsync {α β : Type} (func : α → ℕ → β) (list : List α) : List β :=
  list.enum.map fun p => func p.2 p.1

def mapWorkerSyncGo {α β : Type} (func : α → ℕ → β) : List α → ℕ → List β
  | [], _ => []
  | v :: rest, index => func v index :: mapWorkerSyncGo func rest (index + 1)

def mapWorkerSync {α β : Type} (func : α → ℕ → β) (list : List α) : List β :=
  mapWorkerSyncGo func list 0

def mapIdxAsync {α β : Type} (func : α → Option ℕ → β) (list : List α) :
    List (β ⊕ ℕ) :=
  list.enum.map fun p => Sum.inl (func p.2 (some p.1))

def mapIdxSyncGo {α β : Type} (func : α → Option ℕ → β) :
    List α → ℕ → List (β ⊕ ℕ)
  | [], _ => []
  | v :: rest, index =>
      Sum.inl (func v none) :: Sum.inr index :: mapIdxSyncGo func rest (index + 1)

def mapIdxSync {α β : Type} (func : α → Option ℕ → β) (list : List α) :
    List (β ⊕ ℕ) :=
  mapIdxSyncGo func list 0

lemma mapWorkerSyncGo_eq_enumFrom {α β : Type} (func : α → ℕ → β) :
    ∀ (l : List α) (i : ℕ),
      mapWorkerSyncGo func l i = (l.enumFrom i).map fun p => func p.2 p.1 := by
  intro l
  induction l with
  | nil => intro i; rfl
  | cons v rest ih =>
    intro i
    simp only [mapWorkerSyncGo, List.enumFrom, List.map_cons, ih]

/-- Sample function and list used to exhibit the index.js `map` defect. -/
def mapSampleFunc : ℕ → Option ℕ → ℕ := fun v i => v + i.getD 0

/-- C9: the `worker.js` map helper returns the same list in both modes, but
the `src/index.js` sync branch omits the index argument to `func` and pushes
the loop index into the result list, so on the one-element list `[10]` it
returns a two-element list where the async branch returns one element. -/
theorem C9_theorem :
    (∀ {α β : Type} (func : α → ℕ → β) (list : List α),
        mapWorkerSync func list = mapWorkerAsync func list) ∧
    mapIdxSync mapSampleFunc [10] = [Sum.inl 10, Sum.inr 0] ∧
    mapIdxAsync mapSampleFunc [10] = [Sum.inl 10] ∧
    mapIdxSync mapSampleFunc [10] ≠ mapIdxAsync mapSampleFunc [10] := by
  refine ⟨?_, rfl, rfl, by decide⟩
  intro α β func list
  rw [mapWorkerSync, mapWorkerSyncGo_eq_enumFrom, mapWorkerAsync, List.enum]

/-! ## Pipeline Driver startup (src/index.js `run`)

```js
if ((await countDocuments(BLOCKS)).count > 0) {
    const cursor = await db.query(
        "FOR b IN blocks SORT b.height DESC LIMIT 1 RETURN b");
    block = await cursor.next();
    blockHash = block._key;
} else {
    block = {height: 1};
    blockHash = await client.getBlockHash(1);
}
```
The processing loop then starts by fetching `blockHash` — that is, the
stored max-height block itself — and advances via `nextblockhash`.
The query is modelled as a fold picking a document of maximal height. -/

structure BlockDoc where
  key : String
  height : ℕ
deriving Repr, DecidableEq

def maxHeightBlock (blocks : List BlockDoc) : Option BlockDoc :=
  blocks.foldl
    (fun acc b =>
      match acc with
      | none => some b
      | some m => if m.height < b.height then some b else some m)
    none

/-- The startup logic of `run`: the starting block hash and the height the
driver believes it is at. -/
def resolveStart (blocks : List BlockDoc) (genesisHash : String) : String × ℕ :=
  match maxHeightBlock blocks with
  | some b => (b.key, b.height)
  | none => (genesisHash, 1)

lemma maxHeightBlock_foldl (l : List BlockDoc) :
    ∀ m : BlockDoc, ∃ r,
      (l.foldl
        (fun acc b =>
          match acc with
          | none => some b
          | some m => if m.height < b.height then some b else some m)
        (some m)) = some r ∧
      (r = m ∨ r ∈ l) ∧ m.height ≤ r.height ∧ ∀ b ∈ l, b.height ≤ r.height := by
  induction l with
  | nil => intro m; exact ⟨m, rfl, Or.inl rfl, le_refl _, by simp⟩
  | cons b l ih =>
    intro m
    simp only [List.foldl_cons]
    by_cases hb : m.height < b.height
    · obtain ⟨r, hfold, hmem, hge, hall⟩ := ih b
      refine ⟨r, by simpa [hb] using hfold, ?_, le_of_lt (lt_of_lt_of_le hb hge), ?_⟩
      · rcases hmem with h | h
        · exact Or.inr (h ▸ List.mem_cons_self b l)
        · exact Or.inr (List.mem_cons_of_mem b h)
      · intro b' hb'
        rcases List.mem_cons.mp hb' with h | h
        · exact h ▸ hge
        · exact hall b' h
    · obtain ⟨r, hfold, hmem, hge, hall⟩ := ih m
      refine ⟨r, by simpa [hb] using hfold, ?_, hge, ?_⟩
      · rcases hmem with h | h
        · exact Or.inl h
        · exact Or.inr (List.mem_cons_of_mem b h)
      · intro b' hb'
        rcases List.mem_cons.mp hb' with h | h
        · exact h ▸ le_trans (le_of_not_lt hb) hge
        · exact hall b' h

lemma maxHeightBlock_spec (blocks : List BlockDoc) (hne : blocks ≠ []) :
    ∃ b, maxHeightBlock blocks = some b ∧ b ∈ blocks ∧
      ∀ b' ∈ blocks, b'.height ≤ b.height := by
  match blocks, hne with
  | b :: l, _ =>
    obtain ⟨r, hfold, hmem, hge, hall⟩ := maxHeightBlock_foldl l b
    refine ⟨r, ?_, ?_, ?_⟩
    · simpa [maxHeightBlock] using hfold
    · rcases hmem with h | h
      · exact h ▸ List.mem_cons_self b l
      · exact List.mem_cons_of_mem b h
    · intro b' hb'
      rcases List.mem_cons.mp hb' with h | h
      · exact h ▸ hge
      · exact hall b' h

/-- A concrete three-block store and the chain height-to-hash mapping used
to refute the resume claim. -/
def startBlocks : List BlockDoc := [⟨"B1", 1⟩, ⟨"B2", 2⟩, ⟨"B3", 3⟩]

def exChainHash : ℕ → String
  | 1 => "B1"
  | 2 => "B2"
  | 3 => "B3"
  | 4 => "B4"
  | _ => ""

/-- C1: with stored blocks of heights 1..3 (max height H = 3), startup
resolves the starting hash to the key `"B3"` of the stored height-3 block,
which is the chain hash at height H, not the chain hash `"B4"` of the
successor at height H+1 as the claim requires. -/
theorem C1_counterexample :
    (resolveStart startBlocks "G").1 = exChainHash 3 ∧
    (resolveStart startBlocks "G").1 ≠ exChainHash (3 + 1) := by
  constructor
  · rfl
  · decide

/-- C1 (amended): when the block collection is non-empty the startup
resolves the starting block to a stored block of maximal height H itself —
re-fetching and re-processing block H (its entries are overwritten), with the
successor reached only afterwards via `nextblockhash` — and when the
collection is empty it starts from the genesis-height (height 1) block
hash. -/
theorem C1_resume_amended (blocks : List BlockDoc) (genesisHash : String) :
    (blocks = [] → resolveStart blocks genesisHash = (genesisHash, 1)) ∧
    (blocks ≠ [] → ∃ b ∈ blocks, (∀ b' ∈ blocks, b'.height ≤ b.height) ∧
      resolveStart blocks genesisHash = (b.key, b.height)) := by
  constructor
  · intro h
    subst h
    rfl
  · intro hne
    obtain ⟨b, hmax, hmem, hall⟩ := maxHeightBlock_spec blocks hne
    exact ⟨b, hmem, hall, by rw [resolveStart, hmax]⟩

/-- C1 witness: the amended theorem applied to the concrete store
`startBlocks` (max height 3, key `"B3"`) and, for the empty branch, to the
empty store. -/
theorem C1_resume_amended_witness :
    resolveStart ([] : List BlockDoc) "G" = ("G", 1) ∧
    resolveStart startBlocks "G" = ("B3", 3) := by
  refine ⟨(C1_resume_amended [] "G").1 rfl, ?_⟩
  obtain ⟨b, hmem, hall, heq⟩ := (C1_resume_amended startBlocks "G").2 (by decide)
  have hb3 := hall ⟨"B3", 3⟩ (by decide)
  fin_cases hmem
  · exact absurd hb3 (by decide)
  · exact absurd hb3 (by decide)
  · exact heq

/-! ## Address merge-upsert (src/index.js `saveAddress` / `saveOrUpdateDocument`)

```js
async function saveAddress(address, transactionId, outputId) {
    const document = {
        _key: address,
        outputs: [`${transactionId}:${outputId}`]
    };
    await saveOrUpdateDocument(ADDRESSES, document);
}
```
`saveOrUpdateDocument` issues the AQL query
`UPSERT { _key } INSERT doc UPDATE doc IN addresses`: when the key is
absent the document is inserted; when present, UPDATE merges the
top-level attributes of `doc` into the stored document, which *replaces* the stored
`outputs` attribute with the fresh one-element array.  Either way the
stored association list afterwards is exactly `[entry]`. -/

def AddrStore : Type := String → Option (List String)

def emptyAddrStore : AddrStore := fun _ => none

def saveOrUpdateAddress (store : AddrStore) (key : String)
    (outputs : List String) : AddrStore :=
  fun k => if k = key then some outputs else store k

def saveAddress (store : AddrStore) (address transactionId : String)
    (outputId : ℕ) : AddrStore :=
  saveOrUpdateAddress store address [transactionId ++ ":" ++ toString outputId]

/-- C5: recording a second output for the same address discards the first
association — after merging `"t1:0"` and then `"t2:0"` for address `"A"`,
the stored list is `["t2:0"]` and no longer contains `"t1:0"`. -/
theorem C5_counterexample :
    (saveAddress (saveAddress emptyAddrStore "A" "t1" 0) "A" "t2" 0) "A"
      = some ["t2:0"] ∧
    "t1:0" ∉ (["t2:0"] : List String) := by
  refine ⟨by decide, by decide⟩

/-- C5 (amended): the merge-upsert sets the association list of the address to
exactly the one new `"<txid>:<index>"` entry, replacing (not extending) any
previously recorded associations; applying the same merge twice yields the
same stored state as applying it once, and addresses other than the merged
one are untouched. -/
theorem C5_merge_amended :
    (∀ (store : AddrStore) (a t : String) (n : ℕ),
        saveAddress (saveAddress store a t n) a t n = saveAddress store a t n) ∧
    (∀ (store : AddrStore) (a t : String) (n : ℕ),
        (saveAddress store a t n) a = some [t ++ ":" ++ toString n]) ∧
    (∀ (store : AddrStore) (a t : String) (n : ℕ) (k : String), k ≠ a →
        (saveAddress store a t n) k = store k) := by
  refine ⟨?_, ?_, ?_⟩
  · intro store a t n
    funext k
    simp only [saveAddress, saveOrUpdateAddress]
    split <;> rfl
  · intro store a t n
    simp [saveAddress, saveOrUpdateAddress]
  · intro store a t n k hk
    simp [saveAddress, saveOrUpdateAddress, hk]

/-- C5 witness: the amended merge semantics at a concrete store, address
and entries. -/
theorem C5_merge_amended_witness :
    saveAddress (saveAddress emptyAddrStore "A" "t1" 0) "A" "t1" 0
      = saveAddress emptyAddrStore "A" "t1" 0 ∧
    (saveAddress emptyAddrStore "A" "t1" 0) "A" = some ["t1" ++ ":" ++ toString 0] ∧
    (saveAddress emptyAddrStore "A" "t1" 0) "B" = emptyAddrStore "B" :=
  ⟨C5_merge_amended.1 emptyAddrStore "A" "t1" 0,
   C5_merge_amended.2.1 emptyAddrStore "A" "t1" 0,
   C5_merge_amended.2.2 emptyAddrStore "A" "t1" 0 "B" (by decide)⟩

/-! ## Single-document write retry (`_modifyCollection`)

`part_002` (db.js):
```js
async function _modifyCollection (retries, collection, operation, ...args) {
    try {
        return await collection.handle[operation](...args);
    } catch (error) {
        if (error.isArangoError && error.errorNum === arangoErrors.ERROR_ARANGO_CONFLICT.code && retries > 0) {
            await setImmediatePromise();
            return await _modifyCollection(retries - 1, collection, operation, ...args);
        } else {
            throw error;
        }
    }
}
```
`src/index.js` is identical except that the recursive call reads
`return await modifyCollection(retries - 1, ...)` — and no binding named
`modifyCollection` exists in that file, so the retry path throws a
`ReferenceError` instead of re-attempting.

The backend is modelled as a map from attempt number to outcome; an
attempt either succeeds or raises an ArangoDB error code. -/

inductive JsError where
  | arango (code : ℕ)
  | reference (name : String)
deriving Repr, DecidableEq

def ERROR_ARANGO_CONFLICT : ℕ := 1200

def modifyCollectionDb {α : Type} (outcomes : ℕ → Except ℕ α)
    (retries attempt : ℕ) : Except JsError α :=
  match outcomes attempt with
  | .ok a => .ok a
  | .error code =>
    if code = ERROR_ARANGO_CONFLICT then
      match retries with
      | 0 => .error (.arango code)
      | r + 1 => modifyCollectionDb outcomes r (attempt + 1)
    else .error (.arango code)
termination_by retries

def modifyCollectionIdx {α : Type} (outcomes : ℕ → Except ℕ α)
    (retries attempt : ℕ) : Except JsError α :=
  match outcomes attempt with
  | .ok a => .ok a
  | .error code =>
    if code = ERROR_ARANGO_CONFLICT ∧ retries > 0 then
      .error (.reference "modifyCollection")
    else .error (.arango code)

/-- Backend scenarios: every attempt conflicts; the first attempt conflicts
and the re-attempt succeeds; every attempt fails with a non-conflict code. -/
def alwaysConflict : ℕ → Except ℕ Unit := fun _ => .error ERROR_ARANGO_CONFLICT

def conflictThenOk : ℕ → Except ℕ Unit :=
  fun attempt => if attempt = 0 then .error ERROR_ARANGO_CONFLICT else .ok ()

def otherError : ℕ → Except ℕ Unit := fun _ => .error 1210

lemma modifyCollectionDb_alwaysConflict :
    ∀ retries attempt,
      modifyCollectionDb alwaysConflict retries attempt
        = .error (.arango ERROR_ARANGO_CONFLICT) := by
  intro retries
  induction retries with
  | zero =>
    intro attempt
    rw [modifyCollectionDb]
    simp [alwaysConflict]
  | succ r ih =>
    intro attempt
    rw [modifyCollectionDb]
    simpa [alwaysConflict] using ih (attempt + 1)

/-- C6: with the default budget of 3 retries, the db.js `_modifyCollection`
re-attempts the identical operation after a write conflict (succeeding when
the second attempt succeeds), propagates the conflict when every attempt
conflicts, and propagates any non-conflict code immediately; the
`src/index.js` copy instead raises a `ReferenceError` (for the undefined
name `modifyCollection`) on the very first retry. -/
theorem C6_theorem :
    modifyCollectionDb conflictThenOk 3 0 = .ok () ∧
    (∀ retries attempt,
      modifyCollectionDb alwaysConflict retries attempt
        = .error (.arango ERROR_ARANGO_CONFLICT)) ∧
    modifyCollectionDb otherError 3 0 = .error (.arango 1210) ∧
    modifyCollectionIdx conflictThenOk 3 0 = .error (.reference "modifyCollection") ∧
    modifyCollectionIdx alwaysConflict 3 0 = .error (.reference "modifyCollection") ∧
    modifyCollectionIdx otherError 3 0 = .error (.arango 1210) := by
  refine ⟨?_, modifyCollectionDb_alwaysConflict, ?_, ?_, ?_, ?_⟩
  · rw [modifyCollectionDb]
    simp [conflictThenOk, ERROR_ARANGO_CONFLICT]
    rw [modifyCollectionDb]
    simp [conflictThenOk]
  · rw [modifyCollectionDb]
    simp [otherError, ERROR_ARANGO_CONFLICT]
  · rfl
  · rfl
  · rfl

/-! ## Unique-key conflict handling (`saveDocument`)

```js
async function saveDocument (collection, document) {
    try {
        return await _modifyCollection(commander.retries, collection, "save", document);
    } catch (error) {
        if (error.isArangoError && error.errorNum === arangoErrors.ERROR_ARANGO_UNIQUE_CONSTRAINT_VIOLATED.code && !commander.dontOverwrite) {
            logger.warning(...);
            try {
                return await _replaceDocument(collection, document._key, document);
            } catch (error) { throw new MyError(...); }
        } else {
            throw new MyError(...);
        }
    }
}
```
The backend `save` raises the unique-constraint code 1210 exactly when the
key already exists, and `replace` swaps in the new document; there is no
concurrent writer in this model, so the conflict-retry layer (modelled
separately above) is outcome-neutral here.  A thrown `MyError` is modelled
as the error branch, with the store unchanged.  (The `part_002` copy behaves
identically when its per-call `dontOverwrite` argument keeps the default
`false`.) -/

def DocStore : Type := String → Option String

def updateDoc (store : DocStore) (k d : String) : DocStore :=
  fun k' => if k' = k then some d else store k'

inductive SaveError where
  | uniqueConstraintViolated
deriving Repr, DecidableEq

def saveDocument (dontOverwrite : Bool) (store : DocStore) (k d : String) :
    Except SaveError Unit × DocStore :=
  match store k with
  | none => (.ok (), updateDoc store k d)
  | some _ =>
    if dontOverwrite then (.error .uniqueConstraintViolated, store)
    else (.ok (), updateDoc store k d)

/-- C7: when the key already exists, saving with overwriting permitted
replaces the stored document and succeeds (other keys untouched); saving
with the dont-overwrite flag set propagates the error and leaves the store
unchanged. -/
theorem C7_saveDocument (store : DocStore) (k d old : String)
    (h : store k = some old) :
    (saveDocument false store k d).1 = .ok () ∧
    (saveDocument false store k d).2 k = some d ∧
    (∀ k', k' ≠ k → (saveDocument false store k d).2 k' = store k') ∧
    (saveDocument true store k d).1 = .error .uniqueConstraintViolated ∧
    (saveDocument true store k d).2 = store := by
  refine ⟨?_, ?_, ?_, ?_, ?_⟩ <;>
    simp [saveDocument, h, updateDoc]
  intro k' hk'
  simp [hk']

/-- A one-document store used to witness the unique-conflict branches. -/
def docStoreEx : DocStore := fun k => if k = "a" then some "old" else none

/-- C7 witness: the conflict semantics at the concrete store holding key
`"a"`. -/
theorem C7_saveDocument_witness :
    (saveDocument false docStoreEx "a" "new").1 = .ok () ∧
    (saveDocument false docStoreEx "a" "new").2 "a" = some "new" ∧
    (saveDocument false docStoreEx "a" "new").2 "b" = docStoreEx "b" ∧
    (saveDocument true docStoreEx "a" "new").1 = .error .uniqueConstraintViolated ∧
    (saveDocument true docStoreEx "a" "new").2 = docStoreEx := by
  have h := C7_saveDocument docStoreEx "a" "new" "old" (by decide)
  exact ⟨h.1, h.2.1, h.2.2.1 "b" (by decide), h.2.2.2.1, h.2.2.2.2⟩

/-! ## Missing prior output (`processInput`)

`src/index.js`:
```js
outputId = `${input.txid}:${input.vout}`;
try {
    output = await getDocument(OUTPUTS, outputId);
} catch (error) {
    if (error.code === arangoErrors.ERROR_ARANGO_DOCUMENT_NOT_FOUND.code ||
            error.code === arangoErrors.ERROR_HTTP_NOT_FOUND.code) {
        logger.warning(`...`);
        return 0;
    } else {
        throw error;
    }
}
```
`part_005` has the same handler with the condition negated.  Two facts about
the companion modules decide the outcome:
  * `src/errors.js` defines only `ERROR_ARANGO_CONFLICT`,
    `ERROR_ARANGO_UNIQUE_CONSTRAINT_VIOLATED` and
    `ERROR_ARANGO_GRAPH_NOT_FOUND`, so
    `arangoErrors.ERROR_ARANGO_DOCUMENT_NOT_FOUND` is `undefined` and
    reading `.code` from it throws a `TypeError`; also its `MyError` never
    copies a `code` from the wrapped error (modelled as `none`).
  * the `part_003` errors module (the companion of `part_005` and db.js)
    defines both lookup entries and its `MyError` copies the wrapped
    ArangoDB `errorNum` (1202, document not found) into `code`.
The property table of each errors module is embedded as an association
list; a JS member access `tbl.NAME.code` on a missing `NAME` is the
`typeError` branch. -/

def arangoErrorsIndexFile : List (String × ℕ) :=
  [("ERROR_ARANGO_CONFLICT", 1200),
   ("ERROR_ARANGO_UNIQUE_CONSTRAINT_VIOLATED", 1210),
   ("ERROR_ARANGO_GRAPH_NOT_FOUND", 1924)]

def arangoErrorsFull : List (String × ℕ) :=
  [("ERROR_HTTP_NOT_FOUND", 404),
   ("ERROR_ARANGO_CONFLICT", 1200),
   ("ERROR_ARANGO_DOCUMENT_NOT_FOUND", 1202),
   ("ERROR_ARANGO_COLLECTION_NOT_FOUND", 1203),
   ("ERROR_ARANGO_UNIQUE_CONSTRAINT_VIOLATED", 1210),
   ("ERROR_ARANGO_GRAPH_NOT_FOUND", 1924)]

inductive InputError where
  | typeError (property : String)
  | rethrown
deriving Repr, DecidableEq

def OutputStore : Type := String → Option ℚ

def emptyOutputs : OutputStore := fun _ => none

def missingOutputWarning : String := "missing output warning"

def processInputCatch (tbl : List (String × ℕ)) (errCode : Option ℕ) :
    Except InputError ℚ × List String :=
  match tbl.lookup "ERROR_ARANGO_DOCUMENT_NOT_FOUND" with
  | none => (.error (.typeError "ERROR_ARANGO_DOCUMENT_NOT_FOUND"), [])
  | some c1 =>
    if errCode = some c1 then (.ok 0, [missingOutputWarning])
    else
      match tbl.lookup "ERROR_HTTP_NOT_FOUND" with
      | none => (.error (.typeError "ERROR_HTTP_NOT_FOUND"), [])
      | some c2 =>
        if errCode = some c2 then (.ok 0, [missingOutputWarning])
        else (.error .rethrown, [])

def processInputIdx (store : OutputStore) (prevTxid : String) (prevVout : ℕ) :
    Except InputError ℚ × List String :=
  match store (prevTxid ++ ":" ++ toString prevVout) with
  | some value => (.ok value, [])
  | none => processInputCatch arangoErrorsIndexFile none

def processInputP5 (store : OutputStore) (prevTxid : String) (prevVout : ℕ) :
    Except InputError ℚ × List String :=
  match store (prevTxid ++ ":" ++ toString prevVout) with
  | some value => (.ok value, [])
  | none => processInputCatch arangoErrorsFull (some 1202)

def oneOutput : OutputStore := fun k => if k = "aa:0" then some 5 else none

/-- C3: on an input whose referenced output `"aa:0"` is absent, the
`src/index.js` + `src/errors.js` pairing aborts with a `TypeError` (the
handler reads `.code` from the undefined table entry
`ERROR_ARANGO_DOCUMENT_NOT_FOUND`) instead of warning and returning 0; the
`part_005` pairing behaves as the claim states, and both return the stored
value when the output exists. -/
theorem C3_theorem :
    arangoErrorsIndexFile.lookup "ERROR_ARANGO_DOCUMENT_NOT_FOUND" = none ∧
    processInputIdx emptyOutputs "aa" 0
      = (.error (.typeError "ERROR_ARANGO_DOCUMENT_NOT_FOUND"), []) ∧
    processInputP5 emptyOutputs "aa" 0 = (.ok 0, [missingOutputWarning]) ∧
    processInputIdx oneOutput "aa" 0 = (.ok 5, []) ∧
    processInputP5 oneOutput "aa" 0 = (.ok 5, []) := by
  exact ⟨rfl, rfl, rfl, rfl, rfl⟩

/-! ## Batched import buffers (`part_002` / db.js)

```js
let NUM_BUFFERED_DOCUMENTS = 1000;

async function saveBlock(id, height, time, tx) {
    BLOCKS.entities.push({...});
    if (BLOCKS.entities.length >= NUM_BUFFERED_DOCUMENTS) {
        importDocuments(BLOCKS);
    }
}
// ... identically for the other six entity kinds ...

async function commit() {
    for (let entity of [BLOCKS, TRANSACTIONS, OUTPUTS, ADDRESSES,
        ADDRESSES_TO_OUTPUTS, OUTPUTS_TO_TRANSACTIONS, TRANSACTIONS_TO_OUTPUTS]) {
        if (entity.entities.length > 0) {
            importDocuments(entity);
        }
    }
}

async function importDocuments(entity) {
    entity.handle.import(entity.entities);
    entity.entities = [];
}
```
A buffer is a list of documents; the batches handed to the backend bulk
`import` are collected in `imported`.  The document type is abstract: the
claim concerns buffering mechanics, not document shapes. -/

def NUM_BUFFERED_DOCUMENTS : ℕ := 1000

structure Entity (α : Type) where
  entities : List α
  imported : List (List α)
deriving Repr, DecidableEq

def Entity.free {α : Type} : Entity α := ⟨[], []⟩

def importDocuments {α : Type} (e : Entity α) : Entity α :=
  { entities := [], imported := e.imported ++ [e.entities] }

def pushDoc {α : Type} (e : Entity α) (d : α) : Entity α :=
  let e' : Entity α := { e with entities := e.entities ++ [d] }
  if e'.entities.length ≥ NUM_BUFFERED_DOCUMENTS then importDocuments e' else e'

def commitEntity {α : Type} (e : Entity α) : Entity α :=
  if e.entities.length > 0 then importDocuments e else e

structure DbState (α : Type) where
  blocks : Entity α
  transactions : Entity α
  outputs : Entity α
  addresses : Entity α
  addressesToOutputs : Entity α
  outputsToTransactions : Entity α
  transactionsToOutputs : Entity α
deriving Repr, DecidableEq

def saveBlockDb {α : Type} (s : DbState α) (d : α) : DbState α :=
  { s with blocks := pushDoc s.blocks d }

def saveTransactionDb {α : Type} (s : DbState α) (d : α) : DbState α :=
  { s with transactions := pushDoc s.transactions d }

def saveOutputDb {α : Type} (s : DbState α) (d : α) : DbState α :=
  { s with outputs := pushDoc s.outputs d }

def saveAddressToOutputDb {α : Type} (s : DbState α) (d : α) : DbState α :=
  { s with addressesToOutputs := pushDoc s.addressesToOutputs d }

def saveOutputToTransactionDb {α : Type} (s : DbState α) (d : α) : DbState α :=
  { s with outputsToTransactions := pushDoc s.outputsToTransactions d }

def saveTransactionToOutputDb {α : Type} (s : DbState α) (d : α) : DbState α :=
  { s with transactionsToOutputs := pushDoc s.transactionsToOutputs d }

def saveAddressDb {α : Type} (s : DbState α) (addrDoc edgeDoc : α) : DbState α :=
  saveAddressToOutputDb { s with addresses := pushDoc s.addresses addrDoc } edgeDoc

def commit {α : Type} (s : DbState α) : DbState α :=
  { blocks := commitEntity s.blocks,
    transactions := commitEntity s.transactions,
    outputs := commitEntity s.outputs,
    addresses := commitEntity s.addresses,
    addressesToOutputs := commitEntity s.addressesToOutputs,
    outputsToTransactions := commitEntity s.outputsToTransactions,
    transactionsToOutputs := commitEntity s.transactionsToOutputs }

/-- After `commit`, every buffer of `t` is empty and, kind by kind, the
documents handed to bulk import are exactly those previously handed over
plus the documents that were still sitting in the buffer of `s`. -/
def flushedSpec {α : Type} (s t : DbState α) : Prop :=
  t.blocks.entities = [] ∧ t.transactions.entities = [] ∧
  t.outputs.entities = [] ∧ t.addresses.entities = [] ∧
  t.addressesToOutputs.entities = [] ∧ t.outputsToTransactions.entities = [] ∧
  t.transactionsToOutputs.entities = [] ∧
  t.blocks.imported.flatten = s.blocks.imported.flatten ++ s.blocks.entities ∧
  t.transactions.imported.flatten
    = s.transactions.imported.flatten ++ s.transactions.entities ∧
  t.outputs.imported.flatten = s.outputs.imported.flatten ++ s.outputs.entities ∧
  t.addresses.imported.flatten = s.addresses.imported.flatten ++ s.addresses.entities ∧
  t.addressesToOutputs.imported.flatten
    = s.addressesToOutputs.imported.flatten ++ s.addressesToOutputs.entities ∧
  t.outputsToTransactions.imported.flatten
    = s.outputsToTransactions.imported.flatten ++ s.outputsToTransactions.entities ∧
  t.transactionsToOutputs.imported.flatten
    = s.transactionsToOutputs.imported.flatten ++ s.transactionsToOutputs.entities

lemma commitEntity_entities {α : Type} (e : Entity α) :
    (commitEntity e).entities = [] := by
  rw [commitEntity]
  split
  · rfl
  · simpa using List.eq_nil_of_length_eq_zero (by omega)

lemma commitEntity_join {α : Type} (e : Entity α) :
    (commitEntity e).imported.flatten = e.imported.flatten ++ e.entities := by
  rw [commitEntity]
  split
  · simp [importDocuments]
  · have : e.entities = [] := List.eq_nil_of_length_eq_zero (by omega)
    simp [this]

/-- C8: a per-kind save appends the document to the buffer of its kind, flushing
to bulk import exactly when the buffer reaches 1000 documents; after the
flush-all `commit`, the buffer of every kind is empty and every previously
buffered document has been handed to bulk import. -/
theorem C8_theorem {α : Type} :
    (∀ (e : Entity α) (d : α), e.entities.length < NUM_BUFFERED_DOCUMENTS →
      (e.entities.length + 1 = NUM_BUFFERED_DOCUMENTS →
        pushDoc e d = ⟨[], e.imported ++ [e.entities ++ [d]]⟩) ∧
      (e.entities.length + 1 < NUM_BUFFERED_DOCUMENTS →
        pushDoc e d = ⟨e.entities ++ [d], e.imported⟩)) ∧
    (∀ s : DbState α, flushedSpec s (commit s)) := by
  constructor
  · intro e d _
    constructor
    · intro hfull
      rw [pushDoc]
      simp only [List.length_append, List.length_cons, List.length_nil]
      rw [if_pos (by omega)]
      rfl
    · intro hlt
      rw [pushDoc]
      simp only [List.length_append, List.length_cons, List.length_nil]
      rw [if_neg (by omega)]
  · intro s
    exact ⟨commitEntity_entities _, commitEntity_entities _, commitEntity_entities _,
      commitEntity_entities _, commitEntity_entities _, commitEntity_entities _,
      commitEntity_entities _, commitEntity_join _, commitEntity_join _,
      commitEntity_join _, commitEntity_join _, commitEntity_join _,
      commitEntity_join _, commitEntity_join _⟩

/-- A state with one buffered block document and one already-imported
transaction batch, used to witness the commit semantics. -/
def dbStateEx : DbState ℕ :=
  ⟨⟨[7], []⟩, ⟨[], [[2]]⟩, .free, .free, .free, .free, .free⟩

/-- C8 witness: the threshold behaviour at buffers of length 999 and 0, and
the flush-all semantics at a concrete state. -/
theorem C8_theorem_witness :
    pushDoc (⟨List.replicate 999 0, []⟩ : Entity ℕ) 0
      = ⟨[], [List.replicate 999 0 ++ [0]]⟩ ∧
    pushDoc (Entity.free : Entity ℕ) 0 = ⟨[0], []⟩ ∧
    flushedSpec dbStateEx (commit dbStateEx) := by
  refine ⟨?_, ?_, C8_theorem.2 dbStateEx⟩
  · exact (C8_theorem.1 ⟨List.replicate 999 0, []⟩ 0
        (by rw [List.length_replicate]; norm_num [NUM_BUFFERED_DOCUMENTS])).1
      (by rw [List.length_replicate]; norm_num [NUM_BUFFERED_DOCUMENTS])
  · exact (C8_theorem.1 .free 0
        (by norm_num [Entity.free, NUM_BUFFERED_DOCUMENTS])).2
      (by norm_num [Entity.free, NUM_BUFFERED_DOCUMENTS])

/-! ## Worker block processing (worker.js)

```js
async function processBlock (blockHash) {
    let block = await bitcoin.getBlock(blockHash);
    let stats = await map(processTransaction, block.tx, block);
    await db.saveBlock(...);
    stats = stats.reduce((accumulator, value) => {
        accumulator.numInputs += value.numInputs;
        accumulator.numOutputs += value.numOutputs;
        accumulator.numAddresses += value.numAddresses;
        return accumulator;
    }, {numInputs: 0, numOutputs: 0, numAddresses: 0});
    return {
        nextBlockHash: block.nextblockhash,
        numTransactions: block.tx.length,
        numInputs: stats.numInputs,
        numOutputs: stats.numOutputs,
        numAddresses: stats.numAddresses
    }
}
```
`processTransaction` returns
`{numInputs: vin.length, numOutputs: vout.length,
  numAddresses: numAddresses.reduce((a, v) => a + v)}` — a JS `reduce`
*without* initial value, which throws a `TypeError` on an empty array, so a
transaction with zero outputs is fatal.  `processOutput` throws `MyError`
when the output has no `scriptPubKey`, and otherwise returns the number of
resolved addresses (0 when the `addresses` field is absent or empty).
`processInput` never throws and its return value is unused by the stats.
The db.* calls are buffered appends that always succeed (modelled under the
batching section) and do not influence the returned stats.  The worker
sequential `map` over a throwing body becomes `mapExcept`. -/

structure ScriptPubKey where
  addresses : Option (List String)
  spkType : String
deriving Repr, DecidableEq

structure TxOutput where
  n : ℕ
  value : ℚ
  scriptPubKey : Option ScriptPubKey
deriving Repr, DecidableEq

inductive TxInput where
  | coinbase
  | prevout (txid : String) (vout : ℕ)
deriving Repr, DecidableEq

structure Transaction where
  txid : String
  vin : List TxInput
  vout : List TxOutput
deriving Repr, DecidableEq

structure Block where
  hash : String
  height : ℕ
  time : ℕ
  tx : List Transaction
  nextblockhash : Option String
deriving Repr, DecidableEq

inductive WorkerError where
  | noScriptPubKey (txid : String) (n : ℕ)
  | reduceOfEmptyArray
deriving Repr, DecidableEq

structure TxStats where
  numInputs : ℕ
  numOutputs : ℕ
  numAddresses : ℕ
deriving Repr, DecidableEq

structure BlockStats where
  nextBlockHash : Option String
  numTransactions : ℕ
  numInputs : ℕ
  numOutputs : ℕ
  numAddresses : ℕ
deriving Repr, DecidableEq

def mapExcept {α β : Type} (f : α → Except WorkerError β) :
    List α → Except WorkerError (List β)
  | [] => .ok []
  | a :: as =>
    match f a with
    | .error e => .error e
    | .ok b =>
      match mapExcept f as with
      | .error e => .error e
      | .ok bs => .ok (b :: bs)

def processOutput (txid : String) (output : TxOutput) : Except WorkerError ℕ :=
  match output.scriptPubKey with
  | none => .error (.noScriptPubKey txid output.n)
  | some spk =>
    match spk.addresses with
    | some addrs => if addrs.length ≥ 1 then .ok addrs.length else .ok 0
    | none => .ok 0

def processTransaction (transaction : Transaction) : Except WorkerError TxStats :=
  match mapExcept (processOutput transaction.txid) transaction.vout with
  | .error e => .error e
  | .ok numAddresses =>
    match numAddresses with
    | [] => .error .reduceOfEmptyArray
    | a :: rest =>
      .ok ⟨transaction.vin.length, transaction.vout.length, rest.foldl (· + ·) a⟩

def sumTxStats (stats : List TxStats) : TxStats :=
  stats.foldl
    (fun accumulator v =>
      ⟨accumulator.numInputs + v.numInputs,
       accumulator.numOutputs + v.numOutputs,
       accumulator.numAddresses + v.numAddresses⟩)
    ⟨0, 0, 0⟩

def processBlock (block : Block) : Except WorkerError BlockStats :=
  match mapExcept processTransaction block.tx with
  | .error e => .error e
  | .ok stats =>
    .ok ⟨block.nextblockhash, block.tx.length, (sumTxStats stats).numInputs,
      (sumTxStats stats).numOutputs, (sumTxStats stats).numAddresses⟩

/-- The per-output address count returned by a successful `processOutput`. -/
def numAddressesOf (output : TxOutput) : ℕ :=
  match output.scriptPubKey with
  | none => 0
  | some spk =>
    match spk.addresses with
    | some addrs => if addrs.length ≥ 1 then addrs.length else 0
    | none => 0

def txAddrSum (transaction : Transaction) : ℕ :=
  match transaction.vout.map numAddressesOf with
  | [] => 0
  | a :: rest => rest.foldl (· + ·) a

def txStatsOf (transaction : Transaction) : TxStats :=
  ⟨transaction.vin.length, transaction.vout.length, txAddrSum transaction⟩

lemma mapExcept_ok_mem {α β : Type} (f : α → Except WorkerError β) :
    ∀ (l : List α) (ys : List β), mapExcept f l = .ok ys → ∀ a ∈ l, ∃ b, f a = .ok b := by
  intro l
  induction l with
  | nil => simp
  | cons x xs ih =>
    intro ys hok a ha
    rw [mapExcept] at hok
    cases hfx : f x with
    | error e => rw [hfx] at hok; exact absurd hok (by simp)
    | ok b =>
      rw [hfx] at hok
      cases hrest : mapExcept f xs with
      | error e => rw [hrest] at hok; exact absurd hok (by simp)
      | ok bs =>
        rcases List.mem_cons.mp ha with h | h
        · exact ⟨b, h ▸ hfx⟩
        · exact ih bs hrest a h

lemma mapExcept_ok_of_forall {α β : Type} (f : α → Except WorkerError β) (g : α → β) :
    ∀ l : List α, (∀ a ∈ l, f a = .ok (g a)) → mapExcept f l = .ok (l.map g) := by
  intro l
  induction l with
  | nil => intro _; rfl
  | cons x xs ih =>
    intro h
    rw [mapExcept, h x (List.mem_cons_self x xs),
      ih fun a ha => h a (List.mem_cons_of_mem x ha), List.map_cons]

lemma processOutput_ok (txid : String) (output : TxOutput)
    (h : output.scriptPubKey ≠ none) :
    processOutput txid output = .ok (numAddressesOf output) := by
  obtain ⟨n, value, spkOpt⟩ := output
  rcases spkOpt with _ | ⟨addrsOpt, ty⟩
  · exact absurd rfl h
  · rcases addrsOpt with _ | l
    · rfl
    · rcases l with _ | ⟨a, as⟩
      · rfl
      · simp [processOutput, numAddressesOf]

lemma processTransaction_ok (t : Transaction) (hne : t.vout ≠ [])
    (hspk : ∀ o ∈ t.vout, o.scriptPubKey ≠ none) :
    processTransaction t = .ok (txStatsOf t) := by
  rw [processTransaction,
    mapExcept_ok_of_forall (processOutput t.txid) numAddressesOf t.vout
      fun o ho => processOutput_ok t.txid o (hspk o ho)]
  rw [txStatsOf, txAddrSum]
  cases hm : t.vout.map numAddressesOf with
  | nil => exact absurd (List.map_eq_nil_iff.mp hm) hne
  | cons a rest => rfl

lemma sumTxStats_foldl (l : List TxStats) :
    ∀ acc : TxStats,
      l.foldl
        (fun accumulator v =>
          ⟨accumulator.numInputs + v.numInputs,
           accumulator.numOutputs + v.numOutputs,
           accumulator.numAddresses + v.numAddresses⟩)
        acc
      = ⟨acc.numInputs + (l.map TxStats.numInputs).sum,
         acc.numOutputs + (l.map TxStats.numOutputs).sum,
         acc.numAddresses + (l.map TxStats.numAddresses).sum⟩ := by
  induction l with
  | nil => intro acc; simp
  | cons v rest ih =>
    intro acc
    rw [List.foldl_cons, ih]
    simp only [List.map_cons, List.sum_cons]
    congr 1 <;> omega

lemma sumTxStats_eq (l : List TxStats) :
    sumTxStats l
      = ⟨(l.map TxStats.numInputs).sum, (l.map TxStats.numOutputs).sum,
         (l.map TxStats.numAddresses).sum⟩ := by
  rw [sumTxStats, sumTxStats_foldl]
  simp

lemma processTransaction_not_ok (t : Transaction) (o : TxOutput)
    (ho : o ∈ t.vout) (hspk : o.scriptPubKey = none) :
    ∀ s, processTransaction t ≠ .ok s := by
  intro s htx
  rw [processTransaction] at htx
  cases hm : mapExcept (processOutput t.txid) t.vout with
  | error e => rw [hm] at htx; simp at htx
  | ok ys =>
    obtain ⟨b, hb⟩ := mapExcept_ok_mem _ t.vout ys hm o ho
    rw [processOutput, hspk] at hb
    cases hb

/-- C4: an output with no `scriptPubKey` makes `processOutput` raise the
malformed-output `MyError`, and the error propagates: neither the enclosing
`processTransaction` nor `processBlock` returns a success value — the error
is never swallowed or downgraded to a warning. -/
theorem C4_noScriptPubKey_fatal (block : Block) (t : Transaction) (o : TxOutput)
    (ht : t ∈ block.tx) (ho : o ∈ t.vout) (hspk : o.scriptPubKey = none) :
    processOutput t.txid o = .error (.noScriptPubKey t.txid o.n) ∧
    (processTransaction t).isOk = false ∧
    (processBlock block).isOk = false := by
  refine ⟨by rw [processOutput, hspk], ?_, ?_⟩
  · cases htx : processTransaction t with
    | error e => rfl
    | ok s => exact absurd htx (processTransaction_not_ok t o ho hspk s)
  · cases hb : processBlock block with
    | error e => rfl
    | ok bs =>
      exfalso
      rw [processBlock] at hb
      cases hm : mapExcept processTransaction block.tx with
      | error e => rw [hm] at hb; simp at hb
      | ok ys =>
        obtain ⟨s, hs⟩ := mapExcept_ok_mem _ block.tx ys hm t ht
        exact processTransaction_not_ok t o ho hspk s hs

/-- A block whose single transaction has one output lacking a
`scriptPubKey`. -/
def cexOut : TxOutput := ⟨0, 50, none⟩

def cexTx : Transaction := ⟨"t", [.coinbase], [cexOut]⟩

def cexBlock : Block := ⟨"h", 1, 0, [cexTx], none⟩

/-- C4 witness: the fatality theorem at the concrete malformed block. -/
theorem C4_noScriptPubKey_fatal_witness :
    processOutput "t" cexOut = .error (.noScriptPubKey "t" 0) ∧
    (processTransaction cexTx).isOk = false ∧
    (processBlock cexBlock).isOk = false :=
  C4_noScriptPubKey_fatal cexBlock cexTx cexOut (by decide) (by decide) rfl

/-- C10: `cexBlock` is a block in which every transaction has at least one
output, yet `processBlock` raises the malformed-output error rather than
returning a stats record, because that output lacks a `scriptPubKey`. -/
theorem C10_counterexample :
    (cexBlock.tx.map fun t => t.vout.length) = [1] ∧
    processBlock cexBlock = .error (.noScriptPubKey "t" 0) :=
  ⟨rfl, rfl⟩

/-- C10 (amended): for every block in which every transaction has at least
one output *and every output carries a `scriptPubKey`*, the worker
`processBlock` returns a stats record whose `numTransactions` is the number
of transactions, `numInputs` the sum of the per-transaction input counts,
`numOutputs` the sum of their output counts, and `nextBlockHash` the
`nextblockhash` field. -/
theorem C10_processBlock_amended (block : Block)
    (hout : ∀ t ∈ block.tx, t.vout ≠ [])
    (hspk : ∀ t ∈ block.tx, ∀ o ∈ t.vout, o.scriptPubKey ≠ none) :
    processBlock block
      = .ok ⟨block.nextblockhash, block.tx.length,
          (block.tx.map fun t => t.vin.length).sum,
          (block.tx.map fun t => t.vout.length).sum,
          (block.tx.map txAddrSum).sum⟩ := by
  have hmap : mapExcept processTransaction block.tx = .ok (block.tx.map txStatsOf) :=
    mapExcept_ok_of_forall _ txStatsOf block.tx fun t ht =>
      processTransaction_ok t (hout t ht) (hspk t ht)
  rw [processBlock, hmap]
  simp only [sumTxStats_eq, List.map_map]
  rfl

/-- A well-formed two-transaction block: a coinbase transaction paying
address `"A"`, and a spending transaction with two inputs and two outputs
(one nonstandard address-less output, one two-address output). -/
def gBlock : Block :=
  ⟨"bh", 2, 123,
   [⟨"t1", [.coinbase], [⟨0, 50, some ⟨some ["A"], "pubkeyhash"⟩⟩]⟩,
    ⟨"t2", [.prevout "t1" 0, .prevout "t0" 1],
     [⟨0, 40, some ⟨none, "nonstandard"⟩⟩,
      ⟨1, 9, some ⟨some ["B", "C"], "multisig"⟩⟩]⟩],
   some "bh2"⟩

/-- C10 witness: the amended stats equation at the concrete block `gBlock`
(2 transactions, 1+2 inputs, 1+2 outputs, successor hash `"bh2"`). -/
theorem C10_processBlock_amended_witness :
    processBlock gBlock = .ok ⟨some "bh2", 2, 3, 3, 3⟩ :=
  C10_processBlock_amended gBlock (by decide) (by decide)

end BtcImport
